import Mathlib

/-!
Verification of the weather backfill pipeline in `weather_fetcher.py`
(`WeatherFetcher`): the gap detector `get_missing_hours`, the dedup check
`data_exists`, the response extractor `extract_hourly_data`, the per-city
orchestrator `fetch_city_data`, and the CSV store (`save_to_csv` /
`load_existing_data`).

Modelling conventions.

* UTC instants in the orchestrator are modelled as `Int` seconds since the
  Unix epoch.  Every `datetime` operation used by the code commutes with this
  representation: `now - timedelta(hours=i)` is subtraction of `3600 * i`,
  `replace(minute=0, second=0, microsecond=0)` on a UTC instant is flooring
  to a multiple of 3600, `datetime.fromtimestamp(n, tz=utc)` and
  `int(dt.timestamp())` are the identity, and `datetime` equality is `Int`
  equality.
* The CSV layer is modelled at the level of rows of character-list fields
  (Python's `csv` module reads back exactly the fields it writes, and
  `pd.read_csv` exposes them column-wise).  `datetime.isoformat()` of a
  UTC-aware second-resolution instant and its reparse by `pd.to_datetime`
  are implemented over a calendar-field record `PlainDT`.
* Temperature and humidity are JSON numbers carried through unchanged; the
  code never computes with them.  They are modelled by a type parameter
  `α`; where the CSV serialisation matters the Python `str`/`float` codec
  is a parameter `(enc, dec)` with the (documented, exact) round-trip
  property as a hypothesis.
* Fallible HTTP calls (`requests.get` + `raise_for_status`) are modelled as
  `Except Unit _` valued functions; the `try/except` blocks of
  `fetch_city_data` become matches on that result.
-/

namespace WeatherFetcher

/-- A parsed weather record as held in memory by the fetcher
(`{"timestamp": datetime, "temperature": ..., "humidity": ...}`),
with the instant as epoch seconds. -/
structure Record (α : Type) where
  timestamp : Int
  temperature : α
  humidity : α
  deriving DecidableEq, Repr

/-- One element of the `data` array in a OneCall `timemachine` response:
fields `dt`, `temp`, `humidity`. -/
structure ApiHour (α : Type) where
  dt : Int
  temp : α
  humidity : α
  deriving DecidableEq, Repr

/-- The JSON body of a weather response, reduced to its `data` array.
A missing `data` key and an empty array are both modelled as `[]`
(the code treats them identically). -/
structure ApiResponse (α : Type) where
  data : List (ApiHour α)
  deriving DecidableEq, Repr

/-- `(now - timedelta(hours=i)).replace(minute=0, second=0, microsecond=0)`
on a UTC instant: floor to the enclosing hour boundary. -/
def floorHour (t : Int) : Int := t - t % 3600

/-- `WeatherFetcher.data_exists(existing_df, timestamp)`: `False` on an empty
frame, otherwise whether the row filter `existing_df["timestamp"] == timestamp`
selects at least one row.  The `int` overload converts through
`datetime.fromtimestamp(_, tz=utc)`, the identity in epoch representation. -/
def data_exists (existing : List (Record α)) (timestamp : Int) : Bool :=
  if existing.isEmpty then false
  else decide (0 < (existing.filter (fun r => r.timestamp == timestamp)).length)

/-- `WeatherFetcher.extract_hourly_data(weather_data, target_timestamp)`:
if the `data` array is non-empty, build the record from its FIRST element's
`dt`, `temp` and `humidity`; otherwise `None`.  `target_timestamp` is unused
by the body. -/
def extract_hourly_data (weather_data : ApiResponse α) (_target_timestamp : Int) :
    Option (Record α) :=
  match weather_data.data with
  | [] => none
  | hour_data :: _ =>
      some ⟨hour_data.dt, hour_data.temp, hour_data.humidity⟩

/-- `WeatherFetcher.get_missing_hours(city, hours_back)` given the already
loaded store `existing` and the wall clock `now`: for `i` in
`range(1, hours_back + 1)` compute the floored target hour and keep it iff
`data_exists` is false, in iteration order. -/
def get_missing_hours (existing : List (Record α)) (now : Int) (hours_back : Nat) :
    List Int :=
  ((List.range' 1 hours_back).map
      (fun i : Nat => floorHour (now - 3600 * (i : Int)))).filter
    (fun target_hour => ! data_exists existing target_hour)

/-- The body of the per-hour `try` block in `fetch_city_data`, folded over
`target_times`: a transport/HTTP failure (`Except.error`) or an empty `data`
array contributes nothing and the loop continues; a successful extraction is
appended to `new_records`. -/
def collect_records (api : Int → Except Unit (ApiResponse α)) :
    List Int → List (Record α)
  | [] => []
  | t :: ts =>
      match api t with
      | .error _ => collect_records api ts
      | .ok weather_data =>
          match extract_hourly_data weather_data t with
          | none => collect_records api ts
          | some record => record :: collect_records api ts

/-- `WeatherFetcher.fetch_city_data(city, target_times)` acting on the store
contents.  `geocode` models `get_city_coordinates` (its failure aborts the
whole city batch: the outer `try` returns with nothing saved); `api t` models
`get_historical_weather(lat, lon, t)`.  On the success path the accumulated
`new_records` are written by the single trailing `save_to_csv` call, i.e.
appended after the existing contents. -/
def fetch_city_data (geocode : Except Unit Unit)
    (api : Int → Except Unit (ApiResponse α))
    (store : List (Record α)) (target_times : List Int) : List (Record α) :=
  if target_times.isEmpty then store
  else
    match geocode with
    | .error _ => store
    | .ok _ =>
        let new_records := collect_records api target_times
        if new_records.isEmpty then store else store ++ new_records

/-- One per-city round of `fetch_missing_data(max_hours_back)`: compute the
missing hours from the current store and, if any, run `fetch_city_data` on
them. -/
def backfill (geocode : Except Unit Unit)
    (api : Int → Except Unit (ApiResponse α))
    (now : Int) (hours_back : Nat) (store : List (Record α)) : List (Record α) :=
  let missing := get_missing_hours store now hours_back
  if missing.isEmpty then store else fetch_city_data geocode api store missing

/-- The net contribution of one iteration of the `for target_time in
target_times` loop of `fetch_city_data`: `None` when the HTTP call raises
(caught by the per-hour `except`) or when `extract_hourly_data` returns
`None`, otherwise the extracted record. -/
def hour_result (api : Int → Except Unit (ApiResponse α)) (t : Int) :
    Option (Record α) :=
  match api t with
  | .error _ => none
  | .ok weather_data => extract_hourly_data weather_data t

/-- An API whose responses snap `dt` to a different hour than requested:
asked for hour 3600 it reports a record carrying `dt = 0`; every other hour
has no data.  Both runs see identical responses. -/
def snapApi : Int → Except Unit (ApiResponse Int) :=
  fun t => if t = 3600 then .ok ⟨[⟨0, 20, 50⟩]⟩ else .ok ⟨[]⟩

/-! Calendar fields, used to render the epoch-second scenario values as
civil dates and for the CSV timestamp serialisation. -/

/-- A second-resolution UTC datetime by calendar fields (what
`datetime(year, month, day, hour, minute, second, tzinfo=utc)` holds,
with `microsecond = 0`). -/
structure PlainDT where
  year : Nat
  month : Nat
  day : Nat
  hour : Nat
  minute : Nat
  second : Nat
  deriving DecidableEq, Repr

/-- Civil date from days since 1970-01-01 (proleptic Gregorian, the
computation performed by `datetime.fromtimestamp` for non-negative days). -/
def civilFromDays (z : Nat) : Nat × Nat × Nat :=
  let z2 := z + 719468
  let era := z2 / 146097
  let doe := z2 % 146097
  let yoe := (doe - doe / 1460 + doe / 36524 - doe / 146096) / 365
  let y := yoe + era * 400
  let doy := doe - (365 * yoe + yoe / 4 - yoe / 100)
  let mp := (5 * doy + 2) / 153
  let d := doy - (153 * mp + 2) / 5 + 1
  let m := if mp < 10 then mp + 3 else mp - 9
  (if m ≤ 2 then y + 1 else y, m, d)

/-- `datetime.fromtimestamp(t, tz=utc)` for non-negative epoch seconds,
as calendar fields. -/
def epochToDT (t : Nat) : PlainDT :=
  let days := t / 86400
  let secs := t % 86400
  let c := civilFromDays days
  ⟨c.1, c.2.1, c.2.2, secs / 3600, secs % 3600 / 60, secs % 60⟩

/-! The CSV store layer: `save_to_csv` / `load_existing_data`.  A file is
`Option (List CsvRow)` (absent or a list of rows); a row is the list of its
fields as written and re-read by Python's `csv` module and `pd.read_csv`.
Timestamps are serialised by `datetime.isoformat()` and re-parsed by
`pd.to_datetime`; both are implemented over `PlainDT` below.  The
temperature/humidity scalar codec (`str` on write, `read_csv`'s numeric
parse on load) is a parameter pair `(enc, dec)`. -/

/-- One CSV data row: the list of its fields. -/
abbrev CsvRow := List (List Char)

/-- Decimal digits of `n`, most significant first (empty for 0; every use
below zero-pads).  Models Python's decimal rendering. -/
def natChars (n : Nat) : List Char := ((Nat.digits 10 n).reverse).map Nat.digitChar

/-- Zero-pad on the left to width `k` (as in `%04d` / `%02d`, which
`datetime.isoformat` uses for its fields). -/
def padLeft (k : Nat) (s : List Char) : List Char :=
  List.replicate (k - s.length) '0' ++ s

/-- Consume a maximal run of decimal digits, big-endian accumulating, and
return the value with the unconsumed remainder. -/
def takeDigits : Nat → List Char → Nat × List Char
  | acc, [] => (acc, [])
  | acc, c :: cs =>
      if c.isDigit then takeDigits (acc * 10 + (c.toNat - 48)) cs
      else (acc, c :: cs)

/-- Require character `c` next and consume it. -/
def expectChar (c : Char) : List Char → Option (List Char)
  | [] => none
  | x :: xs => if x = c then some xs else none

/-- A decimal field followed by the delimiter `delim`. -/
def parseField (delim : Char) (s : List Char) : Option (Nat × List Char) :=
  match expectChar delim (takeDigits 0 s).2 with
  | none => none
  | some rest => some ((takeDigits 0 s).1, rest)

/-- The trailing seconds field: digits followed by exactly the UTC offset
suffix `+00:00` that `isoformat` emits for `timezone.utc`. -/
def parseSecField (s : List Char) : Option Nat :=
  match takeDigits 0 s with
  | (n, rest) =>
      if rest = ['+', '0', '0', ':', '0', '0'] then some n else none

/-- `datetime.isoformat()` of a UTC-aware second-resolution datetime:
`YYYY-MM-DDTHH:MM:SS+00:00`. -/
def isoformat (dt : PlainDT) : List Char :=
  padLeft 4 (natChars dt.year) ++ ('-' ::
    (padLeft 2 (natChars dt.month) ++ ('-' ::
      (padLeft 2 (natChars dt.day) ++ ('T' ::
        (padLeft 2 (natChars dt.hour) ++ (':' ::
          (padLeft 2 (natChars dt.minute) ++ (':' ::
            (padLeft 2 (natChars dt.second) ++
              ['+', '0', '0', ':', '0', '0']))))))))))

/-- `pd.to_datetime` on one serialised timestamp field: reparse the ISO-8601
string back into calendar fields. -/
def parseIso (s : List Char) : Option PlainDT :=
  match parseField '-' s with
  | none => none
  | some (y, s1) =>
    match parseField '-' s1 with
    | none => none
    | some (mo, s2) =>
      match parseField 'T' s2 with
      | none => none
      | some (d, s3) =>
        match parseField ':' s3 with
        | none => none
        | some (h, s4) =>
          match parseField ':' s4 with
          | none => none
          | some (mi, s5) =>
            match parseSecField s5 with
            | none => none
            | some sec => some ⟨y, mo, d, h, mi, sec⟩

/-- A WeatherRecord at the store level: timestamp as calendar fields
(`datetime.fromtimestamp(dt, tz=utc)` has `microsecond = 0`). -/
structure WeatherRecord (α : Type) where
  timestamp : PlainDT
  temperature : α
  humidity : α
  deriving DecidableEq, Repr

/-- The header row `timestamp,temperature,humidity` written by
`csv.DictWriter.writeheader()`. -/
def headerRow : CsvRow :=
  ["timestamp".toList, "temperature".toList, "humidity".toList]

/-- One data row as written by `writer.writerow({...})`: the ISO timestamp
and the two scalar fields. -/
def encodeRecord (enc : α → List Char) (record : WeatherRecord α) : CsvRow :=
  [isoformat record.timestamp, enc record.temperature, enc record.humidity]

/-- `WeatherFetcher.save_to_csv(city, data_records)` acting on the file
contents: a no-op for an empty record list; otherwise open in append mode
(creating the file when absent), write the header iff the file did not
previously exist, then one row per record. -/
def save_to_csv (enc : α → List Char) (file : Option (List CsvRow))
    (data_records : List (WeatherRecord α)) : Option (List CsvRow) :=
  if data_records.isEmpty then file
  else
    let file_exists := file.isSome
    let prev := file.getD []
    some (prev ++ (if file_exists then [] else [headerRow]) ++
      data_records.map (encodeRecord enc))

/-- Parse one data row back into a record (`pd.read_csv` field split plus
`pd.to_datetime` on the timestamp column). -/
def decodeRecord (dec : List Char → Option α) (row : CsvRow) :
    Option (WeatherRecord α) :=
  match row with
  | [ts, temp, hum] =>
      match parseIso ts, dec temp, dec hum with
      | some t, some x, some y => some ⟨t, x, y⟩
      | _, _, _ => none
  | _ => none

/-- `WeatherFetcher.load_existing_data(city)` acting on the file contents:
an absent file yields an empty frame; an empty file (pandas
`EmptyDataError`), a file without the expected header columns (`KeyError`),
or any row that fails to parse (all caught by the `except` clause) also
yield the empty frame; otherwise the parsed records. -/
def load_existing_data (dec : List Char → Option α)
    (file : Option (List CsvRow)) : List (WeatherRecord α) :=
  match file with
  | none => []
  | some [] => []
  | some (hdr :: rows) =>
      if hdr = headerRow then
        match rows.mapM (decodeRecord dec) with
        | some records => records
        | none => []
      else []

/-- Python's `str` on a natural number (used to instantiate the scalar codec
concretely in witnesses). -/
def natEnc (n : Nat) : List Char := padLeft 1 (natChars n)

/-- Exact decimal reparse, the inverse of `natEnc`. -/
def natDec (s : List Char) : Option Nat :=
  match takeDigits 0 s with
  | (n, []) => some n
  | _ => none

/-! Basic lemmas about `floorHour`, `data_exists` and `get_missing_hours`. -/

theorem floorHour_emod (t : Int) : floorHour t % 3600 = 0 := by
  unfold floorHour
  omega

theorem floorHour_sub_mul (t k : Int) :
    floorHour (t - 3600 * k) = floorHour t - 3600 * k := by
  have h : (t - 3600 * k) % 3600 = t % 3600 := by
    have h0 := Int.add_mul_emod_self_left t 3600 (-k)
    rw [mul_neg, ← sub_eq_add_neg] at h0
    exact h0
  unfold floorHour
  omega

theorem data_exists_iff (existing : List (Record α)) (t : Int) :
    data_exists existing t = true ↔ ∃ r ∈ existing, r.timestamp = t := by
  unfold data_exists
  rcases existing with _ | ⟨r, rs⟩
  · simp
  · simp only [List.isEmpty_cons, if_false, Bool.false_eq_true, decide_eq_true_eq,
      List.length_pos_iff_exists_mem]
    constructor
    · rintro ⟨x, hx⟩
      rw [List.mem_filter] at hx
      exact ⟨x, hx.1, by simpa using hx.2⟩
    · rintro ⟨x, hx, ht⟩
      exact ⟨x, List.mem_filter.mpr ⟨hx, by simpa using ht⟩⟩

theorem data_exists_append_left (s Δ : List (Record α)) (t : Int)
    (h : data_exists s t = true) : data_exists (s ++ Δ) t = true := by
  rw [data_exists_iff] at h ⊢
  obtain ⟨r, hr, ht⟩ := h
  exact ⟨r, List.mem_append_left _ hr, ht⟩

/-- The candidate hours scanned by `get_missing_hours`, before the existence
filter. -/
theorem get_missing_hours_eq (existing : List (Record α)) (now : Int) (N : Nat) :
    get_missing_hours existing now N =
      ((List.range' 1 N).map (fun i : Nat => floorHour now - 3600 * (i : Int))).filter
        (fun t => ! data_exists existing t) := by
  unfold get_missing_hours
  congr 1
  exact List.map_congr_left fun i _ => floorHour_sub_mul now i

theorem mem_get_missing_hours (existing : List (Record α)) (now : Int) (N : Nat)
    (t : Int) :
    t ∈ get_missing_hours existing now N ↔
      (∃ i : Nat, 1 ≤ i ∧ i ≤ N ∧ t = floorHour (now - 3600 * i)) ∧
        data_exists existing t = false := by
  unfold get_missing_hours
  simp only [List.mem_filter, List.mem_map, List.mem_range'_1, Bool.not_eq_eq_eq_not,
    Bool.not_true]
  constructor
  · rintro ⟨⟨i, ⟨h1, h2⟩, rfl⟩, hd⟩
    exact ⟨⟨i, h1, by omega, rfl⟩, hd⟩
  · rintro ⟨⟨i, h1, h2, rfl⟩, hd⟩
    exact ⟨⟨i, ⟨h1, by omega⟩, rfl⟩, hd⟩

theorem get_missing_hours_pairwise (existing : List (Record α)) (now : Int)
    (N : Nat) :
    (get_missing_hours existing now N).Pairwise (fun a b => b < a) := by
  rw [get_missing_hours_eq]
  apply List.Pairwise.filter
  rw [List.pairwise_map]
  apply List.Pairwise.imp ?_ (List.pairwise_lt_range' 1 N)
  intro i j hij
  have : (3600 : Int) * i < 3600 * j := by
    have : (i : Int) < j := by exact_mod_cast hij
    omega
  omega

theorem hour_result_error (api : Int → Except Unit (ApiResponse α)) (t : Int)
    (e : Unit) (h : api t = .error e) : hour_result api t = none := by
  unfold hour_result; rw [h]

theorem hour_result_ok (api : Int → Except Unit (ApiResponse α)) (t : Int)
    (wd : ApiResponse α) (h : api t = .ok wd) :
    hour_result api t = extract_hourly_data wd t := by
  unfold hour_result; rw [h]

theorem collect_records_eq_filterMap (api : Int → Except Unit (ApiResponse α))
    (ts : List Int) :
    collect_records api ts = ts.filterMap (hour_result api) := by
  induction ts with
  | nil => rfl
  | cons t ts ih =>
      rcases h : api t with e | wd
      · have hl : collect_records api (t :: ts) = collect_records api ts := by
          rw [collect_records, h]
        rw [hl, ih, List.filterMap_cons_none]
        exact hour_result_error api t e h
      · have hstep : collect_records api (t :: ts) =
            match extract_hourly_data wd t with
            | none => collect_records api ts
            | some record => record :: collect_records api ts := by
          rw [collect_records, h]
        rcases hx : extract_hourly_data wd t with _ | r
        · have hl : collect_records api (t :: ts) = collect_records api ts := by
            rw [hstep, hx]
          rw [hl, ih, List.filterMap_cons_none]
          rw [hour_result_ok api t wd h, hx]
        · have hl : collect_records api (t :: ts) =
              r :: collect_records api ts := by
            rw [hstep, hx]
          rw [hl, ih, List.filterMap_cons_some]
          rw [hour_result_ok api t wd h, hx]

theorem fetch_city_data_eq (api : Int → Except Unit (ApiResponse α))
    (store : List (Record α)) (ts : List Int) :
    fetch_city_data (.ok ()) api store ts =
      store ++ ts.filterMap (hour_result api) := by
  unfold fetch_city_data
  rcases ts with _ | ⟨t, ts⟩
  · simp
  · simp only [List.isEmpty_cons, if_false, Bool.false_eq_true,
      collect_records_eq_filterMap]
    rcases h : (t :: ts).filterMap (hour_result api) with _ | ⟨r, rs⟩ <;> simp [h]

/-- Coordinate-resolution failure is caught by the outer `try` of
`fetch_city_data` before anything is saved: the store is unchanged. -/
theorem fetch_city_data_error (api : Int → Except Unit (ApiResponse α))
    (store : List (Record α)) (ts : List Int) (e : Unit) :
    fetch_city_data (.error e) api store ts = store := by
  unfold fetch_city_data
  rcases ts with _ | ⟨t, ts⟩ <;> simp

theorem backfill_ok_eq (api : Int → Except Unit (ApiResponse α)) (now : Int)
    (N : Nat) (s : List (Record α)) :
    backfill (.ok ()) api now N s =
      s ++ (get_missing_hours s now N).filterMap (hour_result api) := by
  unfold backfill
  rcases h : get_missing_hours s now N with _ | ⟨t, ts⟩
  · simp
  · rw [if_neg (by simp), ← h, fetch_city_data_eq]

theorem backfill_error_eq (api : Int → Except Unit (ApiResponse α)) (now : Int)
    (N : Nat) (s : List (Record α)) (e : Unit) :
    backfill (.error e) api now N s = s := by
  unfold backfill
  rcases h : get_missing_hours s now N with _ | ⟨t, ts⟩
  · simp
  · rw [if_neg (by simp), fetch_city_data_error]

theorem data_exists_false (existing : List (Record α)) (t : Int)
    (h : data_exists existing t = false) : ∀ r ∈ existing, r.timestamp ≠ t := by
  intro r hr hrt
  have : data_exists existing t = true := (data_exists_iff existing t).mpr ⟨r, hr, hrt⟩
  rw [h] at this
  exact Bool.false_ne_true this

/-- Growing the store can only shrink the missing-hours list, elementwise in
place: the second scan is a sublist of the first. -/
theorem get_missing_hours_append_sublist (s Δ : List (Record α)) (now : Int)
    (N : Nat) :
    (get_missing_hours (s ++ Δ) now N).Sublist (get_missing_hours s now N) := by
  unfold get_missing_hours
  apply List.monotone_filter_right
  intro t ht
  rw [Bool.not_eq_eq_eq_not, Bool.not_true] at ht ⊢
  rcases h : data_exists s t with _ | _
  · rfl
  · exact absurd (data_exists_append_left s Δ t h) (by rw [ht]; exact Bool.false_ne_true)

/-- When every successful response reports `dt` equal to the requested hour
(`honest`), a fetched record is timestamped at its target hour. -/
theorem hour_result_timestamp (api : Int → Except Unit (ApiResponse α))
    (honest : ∀ t wd hd tl, api t = .ok wd → wd.data = hd :: tl → hd.dt = t)
    (t : Int) (r : Record α) (h : hour_result api t = some r) :
    r.timestamp = t := by
  rcases ha : api t with e | wd
  · rw [hour_result_error api t e ha] at h
    exact absurd h (by simp)
  · rw [hour_result_ok api t wd ha] at h
    rcases weather_data_eq : wd.data with _ | ⟨hd0, tl⟩
    · rw [show extract_hourly_data wd t = none from by
        unfold extract_hourly_data; rw [weather_data_eq]] at h
      exact absurd h (by simp)
    · rw [show extract_hourly_data wd t = some ⟨hd0.dt, hd0.temp, hd0.humidity⟩ from by
        unfold extract_hourly_data; rw [weather_data_eq]] at h
      cases h
      exact honest t wd hd0 tl ha weather_data_eq

/-- C3: `extract_hourly_data` takes the record's timestamp from the
response's `data[0].dt` field, ignoring the requested `target_timestamp`;
that very record is what the orchestrator accumulates and what the single
`save_to_csv` call appends to the store. -/
theorem claim_C3_timestamp_from_response (weather_data : ApiResponse α)
    (hd : ApiHour α) (tl : List (ApiHour α))
    (hdata : weather_data.data = hd :: tl) :
    (∀ target : Int,
        extract_hourly_data weather_data target = some ⟨hd.dt, hd.temp, hd.humidity⟩) ∧
    ∀ (api : Int → Except Unit (ApiResponse α)) (store : List (Record α)) (t : Int),
      api t = .ok weather_data →
        fetch_city_data (.ok ()) api store [t] =
          store ++ [⟨hd.dt, hd.temp, hd.humidity⟩] := by
  have hext : ∀ target : Int,
      extract_hourly_data weather_data target = some ⟨hd.dt, hd.temp, hd.humidity⟩ := by
    intro target
    unfold extract_hourly_data
    rw [hdata]
  refine ⟨hext, fun api store t hapi => ?_⟩
  rw [fetch_city_data_eq, List.filterMap_cons, hour_result_ok api t weather_data hapi,
    hext t, List.filterMap_nil]

/-- C3 witness: for a response carrying `dt = 100` fetched for target hour
999, the extracted and stored record is timestamped 100, not 999. -/
theorem claim_C3_timestamp_from_response_witness :
    extract_hourly_data (α := Int) ⟨[⟨100, 21, 55⟩]⟩ 999 = some ⟨100, 21, 55⟩ ∧
      fetch_city_data (α := Int) (.ok ())
          (fun _ => .ok ⟨[⟨100, 21, 55⟩]⟩) [] [999] = [] ++ [⟨100, 21, 55⟩] :=
  ⟨(claim_C3_timestamp_from_response ⟨[⟨100, 21, 55⟩]⟩ ⟨100, 21, 55⟩ [] rfl).1 999,
    (claim_C3_timestamp_from_response ⟨[⟨100, 21, 55⟩]⟩ ⟨100, 21, 55⟩ [] rfl).2
      (fun _ => .ok ⟨[⟨100, 21, 55⟩]⟩) [] 999 rfl⟩

/-- C7: per-hour failure isolation.  When coordinate resolution succeeds,
the result of `fetch_city_data` is the prior store with the successfully
fetched records appended once at the end (a single `save_to_csv` call), and
an hour whose HTTP call fails contributes nothing while the remaining hours
are unaffected. -/
theorem claim_C7_per_hour_failure_isolation
    (api : Int → Except Unit (ApiResponse α)) (store : List (Record α))
    (target_times : List Int) :
    fetch_city_data (.ok ()) api store target_times =
      store ++ target_times.filterMap (hour_result api) ∧
    ∀ (t : Int) (e : Unit) (rest : List Int), api t = .error e →
      collect_records api (t :: rest) = collect_records api rest := by
  refine ⟨fetch_city_data_eq api store target_times, fun t e rest h => ?_⟩
  rw [collect_records, h]

/-- C7 witness: with the HTTP call failing at hour 3600 and succeeding at
hour 0, the batch still appends the hour-0 record. -/
theorem claim_C7_per_hour_failure_isolation_witness :
    fetch_city_data (α := Int) (.ok ())
        (fun t => if t = 3600 then .error () else .ok ⟨[⟨t, 20, 50⟩]⟩)
        [] [3600, 0] =
      [] ++ ([3600, 0].filterMap
        (hour_result (fun t => if t = 3600 then .error () else .ok ⟨[⟨t, 20, 50⟩]⟩))) :=
  (claim_C7_per_hour_failure_isolation
    (fun t => if t = 3600 then .error () else .ok ⟨[⟨t, 20, 50⟩]⟩) [] [3600, 0]).1

/-- C8: a response with no `data` entries yields `None` from
`extract_hourly_data` (no data available, not an error), so that hour
contributes zero records and the loop continues with the remaining hours. -/
theorem claim_C8_no_data_hour (geocode : Except Unit Unit)
    (api : Int → Except Unit (ApiResponse α)) (store : List (Record α))
    (t : Int) (rest : List Int) (wd : ApiResponse α)
    (hwd : wd.data = []) (hapi : api t = .ok wd) :
    (∀ target : Int, extract_hourly_data wd target = none) ∧
    fetch_city_data geocode api store (t :: rest) =
      fetch_city_data geocode api store rest := by
  have hext : ∀ target : Int, extract_hourly_data wd target = none := by
    intro target
    unfold extract_hourly_data
    rw [hwd]
  refine ⟨hext, ?_⟩
  rcases geocode with e | u
  · rw [fetch_city_data_error, fetch_city_data_error]
  · rw [fetch_city_data_eq, fetch_city_data_eq, List.filterMap_cons_none]
    rw [hour_result_ok api t wd hapi, hext t]

/-- C8 witness: an empty `data` array for hour 0 leaves the store exactly as
a run without that hour would. -/
theorem claim_C8_no_data_hour_witness :
    extract_hourly_data (α := Int) ⟨[]⟩ 0 = none ∧
      fetch_city_data (α := Int) (.ok ()) (fun _ => .ok ⟨[]⟩) [⟨1, 2, 3⟩] [0] =
        fetch_city_data (α := Int) (.ok ()) (fun _ => .ok ⟨[]⟩) [⟨1, 2, 3⟩] [] :=
  ⟨(claim_C8_no_data_hour (α := Int) (.ok ()) (fun _ => .ok ⟨[]⟩) [⟨1, 2, 3⟩]
      0 [] ⟨[]⟩ rfl rfl).1 0,
    (claim_C8_no_data_hour (α := Int) (.ok ()) (fun _ => .ok ⟨[]⟩) [⟨1, 2, 3⟩]
      0 [] ⟨[]⟩ rfl rfl).2⟩

/-- Timestamps written by one batch, under an honest API: exactly the target
hours for which data came back. -/
theorem map_timestamp_filterMap (api : Int → Except Unit (ApiResponse α))
    (honest : ∀ t r, hour_result api t = some r → r.timestamp = t) (ts : List Int) :
    (ts.filterMap (hour_result api)).map Record.timestamp =
      ts.filter (fun t => (hour_result api t).isSome) := by
  induction ts with
  | nil => rfl
  | cons t ts ih =>
      rcases h : hour_result api t with _ | r
      · rw [List.filterMap_cons_none, List.filter_cons_of_neg, ih]
        · simp [h]
        · exact h
      · rw [List.filterMap_cons_some, List.map_cons, honest t r h,
          List.filter_cons_of_pos, ih]
        · simp [h]
        · exact h

/-- C2 counterexample: with the store initially empty, `now = 9000` and
`hoursBack = 2`, running backfill twice against `snapApi` (the same responses
both runs) leaves the store with a duplicated timestamp 0, and the second
run's missing-hours list `[3600]` is neither empty nor equal to the first
run's `[3600, 0]`.  So the claim as stated is false. -/
theorem claim_C2_backfill_idempotent_counterexample :
    ¬ (((backfill (.ok ()) snapApi 9000 2
            (backfill (.ok ()) snapApi 9000 2 [])).map Record.timestamp).Nodup ∧
        (get_missing_hours (backfill (.ok ()) snapApi 9000 2 []) 9000 2 = [] ∨
          get_missing_hours (backfill (.ok ()) snapApi 9000 2 []) 9000 2 =
            get_missing_hours (α := Int) [] 9000 2)) := by
  decide

/-- C2 (amended): with fixed `now`, the second run's missing-hours list is
always a sublist of the first run's; and when every successful response
reports `dt` equal to the requested hour and the initial store has no
duplicate timestamps, the second run leaves the store unchanged (it appends
nothing) and the store after the first run has no duplicate timestamps. -/
theorem claim_C2_backfill_idempotent_amended (g : Except Unit Unit)
    (api : Int → Except Unit (ApiResponse α)) (now : Int) (N : Nat)
    (store0 : List (Record α)) :
    (get_missing_hours (backfill g api now N store0) now N).Sublist
      (get_missing_hours store0 now N) ∧
    ((∀ t wd hd tl, api t = .ok wd → wd.data = hd :: tl → hd.dt = t) →
      (store0.map Record.timestamp).Nodup →
      backfill g api now N (backfill g api now N store0) =
          backfill g api now N store0 ∧
        ((backfill g api now N store0).map Record.timestamp).Nodup) := by
  rcases g with e | ⟨⟩
  · rw [backfill_error_eq api now N store0 e]
    refine ⟨List.Sublist.refl _, fun _ hnd => ?_⟩
    rw [backfill_error_eq]
    exact ⟨rfl, hnd⟩
  · have hrun1 : backfill (.ok ()) api now N store0 =
        store0 ++ (get_missing_hours store0 now N).filterMap (hour_result api) :=
      backfill_ok_eq api now N store0
    constructor
    · rw [hrun1]
      exact get_missing_hours_append_sublist store0 _ now N
    · intro honest hnd
      have honest2 : ∀ t r, hour_result api t = some r → r.timestamp = t :=
        fun t r h => hour_result_timestamp api honest t r h
      have hΔts := map_timestamp_filterMap api honest2 (get_missing_hours store0 now N)
      have hmiss_nodup : (get_missing_hours store0 now N).Nodup :=
        List.Pairwise.imp (fun h => ne_of_gt h)
          (get_missing_hours_pairwise store0 now N)
      have hnodup1 : ((store0 ++
          (get_missing_hours store0 now N).filterMap (hour_result api)).map
            Record.timestamp).Nodup := by
        rw [List.map_append]
        refine List.Nodup.append hnd ?_ ?_
        · rw [hΔts]
          exact hmiss_nodup.filter _
        · intro x hx0 hxd
          rw [hΔts] at hxd
          have hxm := List.mem_of_mem_filter hxd
          have hxe : data_exists store0 x = false :=
            ((mem_get_missing_hours store0 now N x).1 hxm).2
          rw [List.mem_map] at hx0
          obtain ⟨r, hr, hrx⟩ := hx0
          exact data_exists_false store0 x hxe r hr hrx
      have hmiss2_none : ∀ t ∈ get_missing_hours
          (store0 ++ (get_missing_hours store0 now N).filterMap (hour_result api))
          now N, hour_result api t = none := by
        intro t ht
        rcases hr : hour_result api t with _ | r
        · rfl
        · exfalso
          have htm := honest2 t r hr
          have hte : data_exists (store0 ++
              (get_missing_hours store0 now N).filterMap (hour_result api)) t =
              false :=
            ((mem_get_missing_hours _ now N t).1 ht).2
          have ht0 : t ∈ get_missing_hours store0 now N :=
            (get_missing_hours_append_sublist store0 _ now N).subset ht
          have hrd : r ∈ (get_missing_hours store0 now N).filterMap
              (hour_result api) :=
            List.mem_filterMap.mpr ⟨t, ht0, hr⟩
          have htrue : data_exists (store0 ++
              (get_missing_hours store0 now N).filterMap (hour_result api)) t =
              true :=
            (data_exists_iff _ t).mpr ⟨r, List.mem_append_right _ hrd, htm⟩
          rw [hte] at htrue
          exact Bool.false_ne_true htrue
      refine ⟨?_, by rw [hrun1]; exact hnodup1⟩
      rw [hrun1, backfill_ok_eq api now N
        (store0 ++ (get_missing_hours store0 now N).filterMap (hour_result api)),
        List.filterMap_eq_nil_iff.mpr hmiss2_none, List.append_nil]

/-- C2 witness for the amended claim: an honest API with data only for hour
3600, empty initial store, `now = 9000`, window 2: the second run is a no-op
and the store after the first run is duplicate-free. -/
theorem claim_C2_backfill_idempotent_amended_witness :
    backfill (.ok ())
        (fun t => if t = 3600 then .ok (⟨[⟨3600, 20, 50⟩]⟩ : ApiResponse Int)
          else .ok ⟨[]⟩) 9000 2
        (backfill (.ok ())
          (fun t => if t = 3600 then .ok (⟨[⟨3600, 20, 50⟩]⟩ : ApiResponse Int)
            else .ok ⟨[]⟩) 9000 2 []) =
      backfill (.ok ())
        (fun t => if t = 3600 then .ok (⟨[⟨3600, 20, 50⟩]⟩ : ApiResponse Int)
          else .ok ⟨[]⟩) 9000 2 [] ∧
    ((backfill (.ok ())
        (fun t => if t = 3600 then .ok (⟨[⟨3600, 20, 50⟩]⟩ : ApiResponse Int)
          else .ok ⟨[]⟩) 9000 2 []).map Record.timestamp).Nodup :=
  (claim_C2_backfill_idempotent_amended (.ok ())
    (fun t => if t = 3600 then .ok (⟨[⟨3600, 20, 50⟩]⟩ : ApiResponse Int)
      else .ok ⟨[]⟩) 9000 2 []).2
    (by
      intro t wd hd tl hok hdata
      by_cases ht : t = 3600
      · rw [ht] at hok ⊢
        rw [if_pos rfl] at hok
        cases hok
        rw [show (⟨[⟨3600, 20, 50⟩]⟩ : ApiResponse Int).data = [⟨3600, 20, 50⟩]
          from rfl] at hdata
        cases hdata
        rfl
      · rw [if_neg ht] at hok
        cases hok
        simp at hdata)
    (by decide)

/-- C1: `get_missing_hours` returns exactly the floored hours
`floor_to_hour(now - i * 1h)` for `i = 1 .. hoursBack` that are absent from
the store (`data_exists` false), in iteration order of increasing `i`, i.e.
most recent candidate first (strictly decreasing instants).  On an empty
store with `hoursBack = 3` and now = 2024-01-01T10:15:00Z (epoch 1704104100)
the result is the instants 09:00, 08:00 and 07:00 of that day. -/
theorem claim_C1_gap_detector_correct (existing : List (Record α)) (now : Int)
    (N : Nat) :
    (∀ t : Int, t ∈ get_missing_hours existing now N ↔
        ((∃ i : Nat, 1 ≤ i ∧ i ≤ N ∧ t = floorHour (now - 3600 * i)) ∧
          data_exists existing t = false)) ∧
    (get_missing_hours existing now N).Pairwise (fun a b => b < a) ∧
    get_missing_hours (α := Int) [] 1704104100 3 =
      [1704099600, 1704096000, 1704092400] ∧
    ([1704099600, 1704096000, 1704092400] : List Int).map
        (fun t => epochToDT t.toNat) =
      [⟨2024, 1, 1, 9, 0, 0⟩, ⟨2024, 1, 1, 8, 0, 0⟩, ⟨2024, 1, 1, 7, 0, 0⟩] := by
  refine ⟨fun t => mem_get_missing_hours existing now N t,
    get_missing_hours_pairwise existing now N, by decide, by decide⟩

/-- C1 witness: the instant 2024-01-01T09:00:00Z is reported missing for the
empty store via the membership characterisation. -/
theorem claim_C1_gap_detector_correct_witness :
    (1704099600 : Int) ∈ get_missing_hours (α := Int) [] 1704104100 3 :=
  (((claim_C1_gap_detector_correct (α := Int) [] 1704104100 3).1 1704099600)).mpr
    ⟨⟨1, le_refl 1, by decide, by decide⟩, by decide⟩

/-- C4: `data_exists` is an exact-match check: true iff some record's
timestamp equals the queried instant exactly; false on the empty store; a
record at 13:00:00 (epoch 46800) does not match a query at 13:00:01. -/
theorem claim_C4_exists_exact_match (existing : List (Record α)) (t : Int) :
    (data_exists existing t = true ↔ ∃ r ∈ existing, r.timestamp = t) ∧
    data_exists ([] : List (Record α)) t = false ∧
    data_exists (α := Int) [⟨46800, 0, 0⟩] 46801 = false :=
  ⟨data_exists_iff existing t, rfl, by decide⟩

/-- C4 witness: an exactly matching timestamp is reported as existing. -/
theorem claim_C4_exists_exact_match_witness :
    data_exists (α := Int) [⟨46800, 0, 0⟩] 46800 = true :=
  (claim_C4_exists_exact_match (α := Int) [⟨46800, 0, 0⟩] 46800).1.mpr
    ⟨⟨46800, 0, 0⟩, by decide, rfl⟩

/-- C6: `get_missing_hours` returns at most `hoursBack` entries, each on an
exact hour boundary (epoch value divisible by 3600, i.e. minutes, seconds
and sub-seconds zero) and each strictly before the current floored hour. -/
theorem claim_C6_gap_detector_bounds (existing : List (Record α)) (now : Int)
    (N : Nat) :
    (get_missing_hours existing now N).length ≤ N ∧
    ∀ t ∈ get_missing_hours existing now N, t % 3600 = 0 ∧ t < floorHour now := by
  constructor
  · unfold get_missing_hours
    have h := List.length_filter_le
      (fun target_hour => ! data_exists existing target_hour)
      ((List.range' 1 N).map (fun i : Nat => floorHour (now - 3600 * (i : Int))))
    rwa [List.length_map, List.length_range'] at h
  · intro t ht
    rw [mem_get_missing_hours] at ht
    obtain ⟨⟨i, h1, _, rfl⟩, _⟩ := ht
    refine ⟨floorHour_emod _, ?_⟩
    rw [floorHour_sub_mul]
    have hi : (1 : Int) ≤ (i : Int) := by exact_mod_cast h1
    omega

/-- C6 witness: with a two-hour window the detector returns at most two
entries, and each returned instant for the empty store at epoch 7200 is an
hour boundary strictly before hour 7200. -/
theorem claim_C6_gap_detector_bounds_witness :
    (get_missing_hours (α := Int) [] 7200 2).length ≤ 2 ∧
      (3600 : Int) % 3600 = 0 ∧ (3600 : Int) < floorHour 7200 :=
  ⟨(claim_C6_gap_detector_bounds (α := Int) [] 7200 2).1,
    (claim_C6_gap_detector_bounds (α := Int) [] 7200 2).2 3600 (by decide)⟩

/-! Round trip of the timestamp serialisation. -/

theorem digitChar_spec :
    ∀ d : Nat, d < 10 →
      (Nat.digitChar d).isDigit = true ∧ (Nat.digitChar d).toNat - 48 = d := by
  decide

theorem takeDigits_stop (acc : Nat) (c : Char) (cs : List Char)
    (hc : c.isDigit = false) : takeDigits acc (c :: cs) = (acc, c :: cs) := by
  rw [takeDigits, if_neg (by simp [hc])]

theorem takeDigits_digits_append (L : List Nat) (hL : ∀ d ∈ L, d < 10)
    (acc : Nat) (rest : List Char) :
    takeDigits acc (L.map Nat.digitChar ++ rest) =
      takeDigits (L.foldl (fun a d => a * 10 + d) acc) rest := by
  induction L generalizing acc with
  | nil => rfl
  | cons d L ih =>
      have hd : d < 10 := hL d (List.mem_cons_self d L)
      have hspec := digitChar_spec d hd
      rw [List.map_cons, List.cons_append, takeDigits, if_pos hspec.1, hspec.2,
        List.foldl_cons]
      exact ih (fun x hx => hL x (List.mem_cons_of_mem d hx)) (acc * 10 + d)

theorem foldl_step_replicate (j : Nat) :
    (List.replicate j 0).foldl (fun a d => a * 10 + d) 0 = 0 := by
  induction j with
  | zero => rfl
  | succ j ih =>
      rw [List.replicate_succ, List.foldl_cons]
      exact ih

theorem foldr_eq_ofDigits (L : List Nat) :
    L.foldr (fun x y => y * 10 + x) 0 = Nat.ofDigits 10 L := by
  induction L with
  | nil => rfl
  | cons d L ih =>
      rw [List.foldr_cons, ih, Nat.ofDigits_cons]
      ring

theorem foldl_pad_digits (j n : Nat) :
    (List.replicate j 0 ++ (Nat.digits 10 n).reverse).foldl
      (fun a d => a * 10 + d) 0 = n := by
  rw [List.foldl_append, foldl_step_replicate, List.foldl_reverse]
  have h := foldr_eq_ofDigits (Nat.digits 10 n)
  rw [show (fun x y => (fun a d => a * 10 + d) y x) = fun x y => y * 10 + x
    from rfl, h, Nat.ofDigits_digits]

theorem pad_digits_lt (j n : Nat) :
    ∀ d ∈ List.replicate j 0 ++ (Nat.digits 10 n).reverse, d < 10 := by
  intro d hd
  rcases List.mem_append.mp hd with h | h
  · rw [List.eq_of_mem_replicate h]
    exact Nat.succ_pos 9
  · exact Nat.digits_lt_base (by norm_num) (List.mem_reverse.mp h)

theorem padLeft_natChars (k n : Nat) :
    padLeft k (natChars n) =
      (List.replicate (k - (natChars n).length) 0 ++
        (Nat.digits 10 n).reverse).map Nat.digitChar := by
  unfold padLeft natChars
  rw [List.map_append, List.map_replicate]
  rfl

theorem takeDigits_pad_delim (k n : Nat) (c : Char) (rest : List Char)
    (hc : c.isDigit = false) :
    takeDigits 0 (padLeft k (natChars n) ++ (c :: rest)) = (n, c :: rest) := by
  rw [padLeft_natChars,
    takeDigits_digits_append _ (pad_digits_lt _ n) 0 (c :: rest),
    foldl_pad_digits, takeDigits_stop _ c rest hc]

theorem takeDigits_pad_nil (k n : Nat) :
    takeDigits 0 (padLeft k (natChars n)) = (n, []) := by
  rw [show padLeft k (natChars n) = padLeft k (natChars n) ++ [] from
      (List.append_nil _).symm,
    padLeft_natChars, takeDigits_digits_append _ (pad_digits_lt _ n) 0 [],
    foldl_pad_digits]
  rfl

theorem natDec_natEnc (n : Nat) : natDec (natEnc n) = some n := by
  unfold natDec natEnc
  rw [takeDigits_pad_nil 1 n]

theorem parseField_pad (delim : Char) (k n : Nat) (rest : List Char)
    (hd : delim.isDigit = false) :
    parseField delim (padLeft k (natChars n) ++ (delim :: rest)) =
      some (n, rest) := by
  unfold parseField
  rw [takeDigits_pad_delim k n delim rest hd]
  simp [expectChar]

theorem parseSecField_pad (k n : Nat) :
    parseSecField (padLeft k (natChars n) ++ ['+', '0', '0', ':', '0', '0']) =
      some n := by
  unfold parseSecField
  rw [show (['+', '0', '0', ':', '0', '0'] : List Char) =
      '+' :: ['0', '0', ':', '0', '0'] from rfl,
    takeDigits_pad_delim k n '+' _ (by decide)]
  simp

/-- The timestamp round trip: reloading parses back exactly the serialised
calendar fields. -/
theorem parseIso_isoformat (dt : PlainDT) : parseIso (isoformat dt) = some dt := by
  have hdash : ('-' : Char).isDigit = false := by decide
  have hT : ('T' : Char).isDigit = false := by decide
  have hcolon : (':' : Char).isDigit = false := by decide
  simp only [isoformat, parseIso, parseField_pad, parseSecField_pad, hdash, hT,
    hcolon]

theorem decodeRecord_encodeRecord (enc : α → List Char)
    (dec : List Char → Option α) (hcodec : ∀ a, dec (enc a) = some a)
    (r : WeatherRecord α) :
    decodeRecord dec (encodeRecord enc r) = some r := by
  simp only [decodeRecord, encodeRecord, parseIso_isoformat, hcodec]

theorem mapM_append_singleton (f : β → Option γ) (l : List β) (rs : List γ)
    (x : β) (r : γ) (hl : l.mapM f = some rs) (hx : f x = some r) :
    (l ++ [x]).mapM f = some (rs ++ [r]) := by
  induction l generalizing rs with
  | nil =>
      rw [List.mapM_nil] at hl
      cases hl
      rw [List.nil_append, List.mapM_cons, hx, List.mapM_nil]
      rfl
  | cons a l ih =>
      rw [List.mapM_cons] at hl
      rcases ha : f a with _ | b
      · rw [ha] at hl
        simp at hl
      · rw [ha] at hl
        rcases hbs : l.mapM f with _ | bs
        · rw [hbs] at hl
          simp at hl
        · rw [hbs] at hl
          simp at hl
          subst hl
          rw [List.cons_append, List.mapM_cons, ha, ih bs hbs]
          simp

/-- C5: store round trip.  Appending a WeatherRecord to an absent or
well-formed store file and reloading yields the prior records followed by a
record equal to the appended one on timestamp (to the second), temperature
and humidity, provided the scalar codec is exact (as Python's
`str`/`float` pair is). -/
theorem claim_C5_store_round_trip (enc : α → List Char)
    (dec : List Char → Option α) (hcodec : ∀ a, dec (enc a) = some a)
    (file : Option (List CsvRow)) (rows : List CsvRow)
    (records : List (WeatherRecord α))
    (hwf : file = none ∨
      (file = some (headerRow :: rows) ∧
        rows.mapM (decodeRecord dec) = some records))
    (r : WeatherRecord α) :
    load_existing_data dec (save_to_csv enc file [r]) =
      load_existing_data dec file ++ [r] := by
  rcases hwf with hnone | ⟨hsome, hrows⟩
  · subst hnone
    have hmap : ([encodeRecord enc r] : List CsvRow).mapM (decodeRecord dec) =
        some [r] := by
      rw [List.mapM_cons, decodeRecord_encodeRecord enc dec hcodec r,
        List.mapM_nil]
      rfl
    rw [show save_to_csv enc (none : Option (List CsvRow)) [r] =
        some [headerRow, encodeRecord enc r] from rfl]
    simp only [load_existing_data]
    rw [hmap]
    simp
  · subst hsome
    have hmap2 : (rows ++ [encodeRecord enc r]).mapM (decodeRecord dec) =
        some (records ++ [r]) :=
      mapM_append_singleton (decodeRecord dec) rows records
        (encodeRecord enc r) r hrows (decodeRecord_encodeRecord enc dec hcodec r)
    rw [show save_to_csv enc (some (headerRow :: rows)) [r] =
        some (headerRow :: (rows ++ [encodeRecord enc r])) from by
      rw [show save_to_csv enc (some (headerRow :: rows)) [r] =
          some ((headerRow :: rows) ++ [] ++ [encodeRecord enc r]) from rfl]
      simp]
    simp only [load_existing_data]
    rw [hmap2, hrows]
    simp

/-- C5 witness: a concrete record with the Python `str` codec on natural
numbers round-trips through an initially absent store file. -/
theorem claim_C5_store_round_trip_witness :
    load_existing_data natDec
        (save_to_csv natEnc none [⟨⟨2024, 1, 1, 9, 0, 0⟩, 21, 55⟩]) =
      load_existing_data natDec (none : Option (List CsvRow)) ++
        [⟨⟨2024, 1, 1, 9, 0, 0⟩, 21, 55⟩] :=
  claim_C5_store_round_trip natEnc natDec natDec_natEnc none [] []
    (Or.inl rfl) ⟨⟨2024, 1, 1, 9, 0, 0⟩, 21, 55⟩

/-- C9: absent-file behaviour.  `load` of an absent file is the empty
sequence; `append` of a non-empty record list to an absent file creates it
with the header row before the data rows; `append` to an existing file
writes no header. -/
theorem claim_C9_absent_file (enc : α → List Char) (dec : List Char → Option α)
    (records : List (WeatherRecord α)) (hne : records ≠ []) :
    load_existing_data dec (none : Option (List CsvRow)) =
        ([] : List (WeatherRecord α)) ∧
    save_to_csv enc none records =
      some (headerRow :: records.map (encodeRecord enc)) ∧
    ∀ f : List CsvRow, save_to_csv enc (some f) records =
      some (f ++ records.map (encodeRecord enc)) := by
  have hne2 : records.isEmpty = false := by
    cases records with
    | nil => exact absurd rfl hne
    | cons a l => rfl
  refine ⟨rfl, ?_, ?_⟩
  · unfold save_to_csv
    rw [hne2]
    simp
  · intro f
    unfold save_to_csv
    rw [hne2]
    simp

/-- C9 witness: one concrete record appended to an absent file creates
header plus row; appended to a file holding only the header it appends the
row with no second header. -/
theorem claim_C9_absent_file_witness :
    load_existing_data natDec (none : Option (List CsvRow)) =
        ([] : List (WeatherRecord Nat)) ∧
    save_to_csv natEnc none [(⟨⟨2024, 1, 1, 9, 0, 0⟩, 21, 55⟩ : WeatherRecord Nat)] =
      some (headerRow ::
        [(⟨⟨2024, 1, 1, 9, 0, 0⟩, 21, 55⟩ : WeatherRecord Nat)].map
          (encodeRecord natEnc)) ∧
    save_to_csv natEnc (some [headerRow])
        [(⟨⟨2024, 1, 1, 9, 0, 0⟩, 21, 55⟩ : WeatherRecord Nat)] =
      some ([headerRow] ++
        [(⟨⟨2024, 1, 1, 9, 0, 0⟩, 21, 55⟩ : WeatherRecord Nat)].map
          (encodeRecord natEnc)) :=
  ⟨(claim_C9_absent_file natEnc natDec
      [(⟨⟨2024, 1, 1, 9, 0, 0⟩, 21, 55⟩ : WeatherRecord Nat)] (by simp)).1,
    (claim_C9_absent_file natEnc natDec
      [(⟨⟨2024, 1, 1, 9, 0, 0⟩, 21, 55⟩ : WeatherRecord Nat)] (by simp)).2.1,
    (claim_C9_absent_file natEnc natDec
      [(⟨⟨2024, 1, 1, 9, 0, 0⟩, 21, 55⟩ : WeatherRecord Nat)] (by simp)).2.2 [headerRow]⟩

/-- C10: appending an empty record sequence is a complete no-op on the file
state: it neither creates an absent file nor writes a header nor modifies an
existing file. -/
theorem claim_C10_empty_append_noop (enc : α → List Char)
    (file : Option (List CsvRow)) :
    save_to_csv enc file [] = file :=
  rfl

end WeatherFetcher
